import Mathlib

/-!
Shallow embedding of the wallet/transaction ledger (src/wallet.rs, src/types.rs)
and the bandwidth reward-accrual engine (src/bandwidth.rs) of the
rustcryptologic repository, together with proofs of the spec's claims.

Modelling conventions:
- `f64` money/rate values are modelled as `ℚ` (exact field arithmetic).
- `Uuid` identifiers and `DateTime<Utc>` timestamps are modelled as `Nat`;
  every operation that calls `Utc::now()` takes the current time explicitly.
- `HashMap<Uuid, Wallet>` is modelled as a list of wallets with first-match
  lookup on the `id` field (keys are unique in a `HashMap`, so first-match
  lookup and in-place replacement agree with the map semantics).
- `tokio::sync::RwLock` state is modelled by explicit state passing; fallible
  operations return `Except CryptoNodeError`.
-/

/-- Supported cryptocurrency types (src/types.rs, `CurrencyType`). -/
inductive CurrencyType
  | Bitcoin
  | Ethereum
deriving DecidableEq

/-- Transaction status (src/types.rs, `TransactionStatus`). -/
inductive TransactionStatus
  | Pending
  | Confirmed
  | Failed
deriving DecidableEq

/-- Error kinds used by the ledger core (src/error.rs, `CryptoNodeError`);
only the constructors the modelled operations raise, message payloads elided. -/
inductive CryptoNodeError
  | NotFound
  | InvalidInput
  | CryptoOperation
deriving DecidableEq

/-- A cryptocurrency wallet (src/types.rs, `Wallet`). -/
structure Wallet where
  id : Nat
  address : String
  public_key : List Nat
  private_key : List Nat
  currency_type : CurrencyType
  balance : ℚ
  created_at : Nat
  last_updated : Nat
deriving DecidableEq

/-- A cryptocurrency transaction (src/types.rs, `Transaction`). -/
structure Transaction where
  id : Nat
  from_wallet : String
  to_wallet : String
  amount : ℚ
  currency_type : CurrencyType
  timestamp : Nat
  status : TransactionStatus
  fee : Option ℚ
deriving DecidableEq

/-- The state owned by `WalletManager` (src/wallet.rs): the wallet map and the
transaction log. -/
structure WalletManager where
  wallets : List Wallet
  transactions : List Transaction
deriving DecidableEq

/-- First-match lookup of a wallet by id: the list model of
`HashMap::get(&id)` used by `get_wallet` and `update_wallet_balance`. -/
def find_wallet (wallet_id : Nat) : List Wallet → Option Wallet
  | [] => none
  | w :: ws => if w.id = wallet_id then some w else find_wallet wallet_id ws

/-- `WalletManager::get_wallet` (src/wallet.rs lines 66-71). -/
def get_wallet (st : WalletManager) (wallet_id : Nat) : Except CryptoNodeError Wallet :=
  match find_wallet wallet_id st.wallets with
  | some w => .ok w
  | none => .error .NotFound

/-- Replace the wallet stored under `wallet_id` with the same wallet carrying
`new_balance` and `last_updated := now`; returns the updated wallet and the
updated collection (the list model of `HashMap::get_mut` + field assignment in
`update_wallet_balance`). -/
def set_balance_first (wallet_id : Nat) (new_balance : ℚ) (now : Nat) :
    List Wallet → Option (Wallet × List Wallet)
  | [] => none
  | w :: ws =>
    if w.id = wallet_id then
      some ({ w with balance := new_balance, last_updated := now },
            { w with balance := new_balance, last_updated := now } :: ws)
    else
      match set_balance_first wallet_id new_balance now ws with
      | some (u, ws2) => some (u, w :: ws2)
      | none => none

/-- `WalletManager::update_wallet_balance` (src/wallet.rs lines 156-166):
unconditional balance set, `NotFound` if the wallet id is unknown. -/
def update_wallet_balance (st : WalletManager) (wallet_id : Nat) (new_balance : ℚ)
    (now : Nat) : Except CryptoNodeError (Wallet × WalletManager) :=
  match set_balance_first wallet_id new_balance now st.wallets with
  | some (w, ws) => .ok (w, { st with wallets := ws })
  | none => .error .NotFound

/-- `WalletManager::create_transaction` (src/wallet.rs lines 80-113). The fresh
`Uuid::new_v4()` and `Utc::now()` are passed in as `new_id` and `now`; the
hard-coded example fee is `Some(0.001)`. -/
def create_transaction (st : WalletManager) (from_wallet : Wallet) (to_address : String)
    (amount : ℚ) (new_id : Nat) (now : Nat) :
    Except CryptoNodeError (Transaction × WalletManager) :=
  if amount ≤ 0 then
    .error .InvalidInput
  else if from_wallet.balance < amount then
    .error .InvalidInput
  else
    let transaction : Transaction :=
      { id := new_id
        from_wallet := from_wallet.address
        to_wallet := to_address
        amount := amount
        currency_type := from_wallet.currency_type
        timestamp := now
        status := .Pending
        fee := some (1 / 1000) }
    .ok (transaction, { st with transactions := st.transactions ++ [transaction] })

/-- First-match lookup of a transaction by id: the list model of
`transactions.iter_mut().find(|t| t.id == transaction_id)`. -/
def find_transaction (transaction_id : Nat) : List Transaction → Option Transaction
  | [] => none
  | t :: ts => if t.id = transaction_id then some t else find_transaction transaction_id ts

/-- Set the status of the first transaction whose id matches, returning the
updated transaction and the updated log (mirrors the `iter_mut().find` +
`transaction.status = status` in `update_transaction_status`). -/
def set_status_first (transaction_id : Nat) (status : TransactionStatus) :
    List Transaction → Option (Transaction × List Transaction)
  | [] => none
  | t :: ts =>
    if t.id = transaction_id then
      some ({ t with status := status }, { t with status := status } :: ts)
    else
      match set_status_first transaction_id status ts with
      | some (u, ts2) => some (u, t :: ts2)
      | none => none

/-- The per-wallet side effect of confirming transaction `t`
(src/wallet.rs lines 135-139): a wallet whose address equals the
transaction's sender address is debited `amount + fee.unwrap_or(0)` and
gets a fresh last-modified timestamp; any other wallet is unchanged. -/
def confirm_debit (t : Transaction) (now : Nat) (w : Wallet) : Wallet :=
  if w.address = t.from_wallet then
    { w with balance := w.balance - (t.amount + t.fee.getD 0), last_updated := now }
  else
    w

/-- `WalletManager::update_transaction_status` (src/wallet.rs lines 116-144):
find the transaction, set its status unconditionally, and when the new status
is `Confirmed` debit every wallet matching the sender address. -/
def update_transaction_status (st : WalletManager) (transaction_id : Nat)
    (status : TransactionStatus) (now : Nat) :
    Except CryptoNodeError (Transaction × WalletManager) :=
  match set_status_first transaction_id status st.transactions with
  | none => .error .NotFound
  | some (t, ts2) =>
    let ws2 :=
      if status = .Confirmed then st.wallets.map (confirm_debit t now) else st.wallets
    .ok (t, { wallets := ws2, transactions := ts2 })

deriving instance DecidableEq for Except

/-- Bandwidth sharing metrics as constructed and mutated by
src/bandwidth.rs (fields of the `BandwidthMetrics` value built in
`BandwidthManager::new`): cumulative bytes, instantaneous speed in
bytes/second, uptime in seconds, optional last-reward timestamp, and the
start timestamp fixed at creation. -/
structure BandwidthMetrics where
  total_bytes_shared : Nat
  current_speed : ℚ
  uptime : Nat
  last_reward : Option Nat
  start_time : Nat
deriving DecidableEq

/-- The tunable fields of `BandwidthManager` (src/bandwidth.rs lines 14-20);
`measurement_interval` is in seconds. -/
structure BandwidthManager where
  reward_rate : ℚ
  min_bandwidth : Nat
  measurement_interval : Nat
deriving DecidableEq

/-- The defaults set by `BandwidthManager::new` (src/bandwidth.rs lines 24-38). -/
def BandwidthManager.new : BandwidthManager :=
  { reward_rate := 1 / 10000
    min_bandwidth := 1024 * 1024
    measurement_interval := 60 }

/-- The metrics value constructed by `BandwidthManager::new`: zero totals, no
reward yet, start time fixed at creation. -/
def fresh_metrics (start : Nat) : BandwidthMetrics :=
  { total_bytes_shared := 0
    current_speed := 0
    uptime := 0
    last_reward := none
    start_time := start }

/-- The values `start_monitoring` copies out of the manager before spawning
the loop (src/bandwidth.rs lines 42-46): the spawned loop closes over these
copies, never over the manager itself. -/
structure LoopConfig where
  reward_rate : ℚ
  min_bandwidth : Nat
  interval_duration : Nat
deriving DecidableEq

/-- `BandwidthManager::start_monitoring` value capture (src/bandwidth.rs
lines 41-48): the loop configuration is a copy of the manager's current
tunables taken at start time. -/
def start_monitoring (bm : BandwidthManager) : LoopConfig :=
  { reward_rate := bm.reward_rate
    min_bandwidth := bm.min_bandwidth
    interval_duration := bm.measurement_interval }

/-- One iteration of the monitoring loop (src/bandwidth.rs lines 51-76) with
the measured sample `bytes_this_interval` passed in for the
`measure_bandwidth()` collaborator and `now` for `Utc::now()`:
accumulate the sample, recompute the speed, extend uptime; then, if the
sample meets the threshold, credit `(bytes / 1 MiB) * reward_rate` to the
monitored wallet via `get_wallet` + `update_wallet_balance` (the write's
result is discarded) and record `last_reward` when the wallet was read. -/
def tick (cfg : LoopConfig) (wallet_id : Nat) (bytes_this_interval : Nat) (now : Nat)
    (m : BandwidthMetrics) (st : WalletManager) : BandwidthMetrics × WalletManager :=
  let m1 : BandwidthMetrics :=
    { m with
      total_bytes_shared := m.total_bytes_shared + bytes_this_interval
      current_speed := (bytes_this_interval : ℚ) / (cfg.interval_duration : ℚ)
      uptime := m.uptime + cfg.interval_duration }
  if cfg.min_bandwidth ≤ bytes_this_interval then
    let mb_shared : ℚ := (bytes_this_interval : ℚ) / (1024 * 1024)
    let reward : ℚ := mb_shared * cfg.reward_rate
    match get_wallet st wallet_id with
    | .ok wallet =>
      let new_balance := wallet.balance + reward
      let st2 :=
        match update_wallet_balance st wallet_id new_balance now with
        | .ok (_, st2) => st2
        | .error _ => st
      ({ m1 with last_reward := some now }, st2)
    | .error _ => (m1, st)
  else
    (m1, st)

/-- `N` consecutive iterations of one monitoring loop, every tick measuring
the same `sample`; `times k` is the wall-clock time of the tick taken when
`k` ticks remain. -/
def run_ticks (cfg : LoopConfig) (wallet_id : Nat) (sample : Nat) (times : Nat → Nat) :
    Nat → BandwidthMetrics × WalletManager → BandwidthMetrics × WalletManager
  | 0, p => p
  | n + 1, p => run_ticks cfg wallet_id sample times n (tick cfg wallet_id sample (times n) p.1 p.2)

/-- `BandwidthManager::update_reward_rate` (src/bandwidth.rs lines 89-95). -/
def update_reward_rate (bm : BandwidthManager) (new_rate : ℚ) :
    Except CryptoNodeError BandwidthManager :=
  if new_rate < 0 then .error .InvalidInput
  else .ok { bm with reward_rate := new_rate }

/-- `BandwidthManager::update_min_bandwidth` (src/bandwidth.rs lines 98-104). -/
def update_min_bandwidth (bm : BandwidthManager) (new_min : Nat) :
    Except CryptoNodeError BandwidthManager :=
  if new_min = 0 then .error .InvalidInput
  else .ok { bm with min_bandwidth := new_min }

/-- `BandwidthManager::calculate_total_rewards` (src/bandwidth.rs lines
107-111): recomputed from the lifetime byte counter at the manager's current
rate. -/
def calculate_total_rewards (bm : BandwidthManager) (m : BandwidthMetrics) : ℚ :=
  ((m.total_bytes_shared : ℚ) / (1024 * 1024)) * bm.reward_rate

/-- `BandwidthManager::get_estimated_hourly_rewards` (src/bandwidth.rs lines
114-119). -/
def get_estimated_hourly_rewards (bm : BandwidthManager) (m : BandwidthMetrics) : ℚ :=
  ((m.current_speed * 3600) / (1024 * 1024)) * bm.reward_rate

/-- Whether the wallet id is present in the store; in the sequential model
this is exactly the success condition of both `get_wallet` and
`update_wallet_balance`. -/
def wallet_exists (st : WalletManager) (wallet_id : Nat) : Bool :=
  (find_wallet wallet_id st.wallets).isSome

lemma find_transaction_id (tid : Nat) (t : Transaction) :
    ∀ ts : List Transaction, find_transaction tid ts = some t → t.id = tid := by
  intro ts
  induction ts with
  | nil => simp [find_transaction]
  | cons t0 ts ih =>
    by_cases h0 : t0.id = tid
    · simp only [find_transaction, if_pos h0]
      rintro ⟨rfl⟩
      exact h0
    · simpa only [find_transaction, if_neg h0] using ih

lemma find_transaction_append (tid : Nat) (pre ts : List Transaction)
    (h : ∀ u ∈ pre, u.id ≠ tid) :
    find_transaction tid (pre ++ ts) = find_transaction tid ts := by
  induction pre with
  | nil => rfl
  | cons u pre ih =>
    have hu : u.id ≠ tid := h u (List.mem_cons_self u pre)
    simp only [List.cons_append, find_transaction, if_neg hu]
    exact ih fun v hv => h v (List.mem_cons_of_mem u hv)

lemma find_set_status (tid : Nat) (s : TransactionStatus) (t : Transaction) :
    ∀ ts : List Transaction, find_transaction tid ts = some t →
    ∃ pre post,
      ts = pre ++ t :: post ∧
      (∀ u ∈ pre, u.id ≠ tid) ∧
      set_status_first tid s ts =
        some ({ t with status := s }, pre ++ { t with status := s } :: post) := by
  intro ts
  induction ts with
  | nil => simp [find_transaction]
  | cons t0 ts ih =>
    by_cases h0 : t0.id = tid
    · simp only [find_transaction, if_pos h0]
      rintro ⟨rfl⟩
      exact ⟨[], ts, rfl, by simp, by simp [set_status_first, if_pos h0]⟩
    · simp only [find_transaction, if_neg h0]
      intro h
      obtain ⟨pre, post, hts, hpre, hset⟩ := ih h
      refine ⟨t0 :: pre, post, by simp [hts], ?_, ?_⟩
      · intro u hu
        rcases List.mem_cons.mp hu with rfl | hu
        · exact h0
        · exact hpre u hu
      · simp [set_status_first, if_neg h0, hset]

lemma find_wallet_id (wid : Nat) (w : Wallet) :
    ∀ ws : List Wallet, find_wallet wid ws = some w → w.id = wid := by
  intro ws
  induction ws with
  | nil => simp [find_wallet]
  | cons w0 ws ih =>
    by_cases h0 : w0.id = wid
    · simp only [find_wallet, if_pos h0]
      rintro ⟨rfl⟩
      exact h0
    · simpa only [find_wallet, if_neg h0] using ih

lemma find_set_balance (wid : Nat) (b : ℚ) (now : Nat) (w : Wallet) :
    ∀ ws : List Wallet, find_wallet wid ws = some w →
    ∃ ws2,
      set_balance_first wid b now ws = some ({ w with balance := b, last_updated := now }, ws2) ∧
      find_wallet wid ws2 = some { w with balance := b, last_updated := now } := by
  intro ws
  induction ws with
  | nil => simp [find_wallet]
  | cons w0 ws ih =>
    by_cases h0 : w0.id = wid
    · simp only [find_wallet, if_pos h0]
      rintro ⟨rfl⟩
      refine ⟨{ w with balance := b, last_updated := now } :: ws, ?_, ?_⟩
      · simp [set_balance_first, if_pos h0]
      · simp [find_wallet, if_pos h0]
    · simp only [find_wallet, if_neg h0]
      intro h
      obtain ⟨ws2, hset, hfind⟩ := ih h
      refine ⟨w0 :: ws2, ?_, ?_⟩
      · simp [set_balance_first, if_neg h0, hset]
      · simp [find_wallet, if_neg h0, hfind]

lemma set_balance_first_none (wid : Nat) (b : ℚ) (now : Nat) :
    ∀ ws : List Wallet, find_wallet wid ws = none → set_balance_first wid b now ws = none := by
  intro ws
  induction ws with
  | nil => simp [set_balance_first]
  | cons w0 ws ih =>
    by_cases h0 : w0.id = wid
    · simp [find_wallet, if_pos h0]
    · simp only [find_wallet, if_neg h0, set_balance_first]
      intro h
      simp [ih h]

lemma confirm_debit_twice (t : Transaction) (n1 n2 : Nat) (w : Wallet) :
    confirm_debit t n2 (confirm_debit t n1 w) =
      if w.address = t.from_wallet then
        { w with balance := w.balance - 2 * (t.amount + t.fee.getD 0), last_updated := n2 }
      else w := by
  by_cases h : w.address = t.from_wallet
  · simp only [confirm_debit, if_pos h, Wallet.mk.injEq, and_true, true_and]
    ring
  · simp [confirm_debit, h]

/-- A sample wallet used to instantiate the proved properties. -/
def wA : Wallet :=
  { id := 1
    address := "alice"
    public_key := [1]
    private_key := [2]
    currency_type := .Bitcoin
    balance := 10
    created_at := 0
    last_updated := 0 }

/-- A second sample wallet with a different address. -/
def wB : Wallet :=
  { id := 2
    address := "bob"
    public_key := [3]
    private_key := [4]
    currency_type := .Bitcoin
    balance := 7
    created_at := 0
    last_updated := 0 }

/-- A sample pending transaction sending 3 units from wA's address. -/
def txA : Transaction :=
  { id := 5
    from_wallet := "alice"
    to_wallet := "bob"
    amount := 3
    currency_type := .Bitcoin
    timestamp := 1
    status := .Pending
    fee := some (1 / 1000) }

/-- A sample ledger state holding both wallets and the pending transaction. -/
def stA : WalletManager := { wallets := [wA, wB], transactions := [txA] }

/-- C1: for a transaction `t` in the store (found under its id), confirming it
debits every wallet whose address equals `t`'s sender address by exactly
`amount + fee` (0 when absent) and stamps that wallet's last-modified time;
wallets with a different address are unchanged. -/
theorem C1_confirm_debits_matching_wallets (st : WalletManager) (t : Transaction) (now : Nat)
    (h : find_transaction t.id st.transactions = some t) :
    ∃ st2 : WalletManager,
      update_transaction_status st t.id .Confirmed now =
        .ok ({ t with status := .Confirmed }, st2) ∧
      st2.wallets = st.wallets.map (fun w =>
        if w.address = t.from_wallet then
          { w with balance := w.balance - (t.amount + t.fee.getD 0), last_updated := now }
        else w) := by
  obtain ⟨pre, post, hts, hpre, hset⟩ := find_set_status t.id .Confirmed t st.transactions h
  refine ⟨⟨st.wallets.map (confirm_debit { t with status := .Confirmed } now),
           pre ++ { t with status := .Confirmed } :: post⟩, ?_, ?_⟩
  · simp [update_transaction_status, hset]
  · rfl

/-- Closed instantiation of C1 at a concrete two-wallet ledger. -/
theorem C1_witness :
    ∃ st2 : WalletManager,
      update_transaction_status stA txA.id .Confirmed 9 =
        .ok ({ txA with status := .Confirmed }, st2) ∧
      st2.wallets = stA.wallets.map (fun w =>
        if w.address = txA.from_wallet then
          { w with balance := w.balance - (txA.amount + txA.fee.getD 0), last_updated := 9 }
        else w) :=
  C1_confirm_debits_matching_wallets stA txA 9 rfl

/-- C8: setting a transaction's status to `Failed` rewrites only that
transaction's status field in the log (all other transactions are untouched,
byte for byte) and leaves the wallet collection exactly as it was. -/
theorem C8_fail_changes_only_status (st : WalletManager) (t : Transaction) (now : Nat)
    (h : find_transaction t.id st.transactions = some t) :
    ∃ pre post st2,
      st.transactions = pre ++ t :: post ∧
      update_transaction_status st t.id .Failed now = .ok ({ t with status := .Failed }, st2) ∧
      st2.transactions = pre ++ { t with status := .Failed } :: post ∧
      st2.wallets = st.wallets := by
  obtain ⟨pre, post, hts, hpre, hset⟩ := find_set_status t.id .Failed t st.transactions h
  refine ⟨pre, post, ⟨st.wallets, pre ++ { t with status := .Failed } :: post⟩, hts, ?_, rfl, rfl⟩
  simp [update_transaction_status, hset]

/-- Closed instantiation of C8 at a concrete two-wallet ledger. -/
theorem C8_witness :
    ∃ pre post st2,
      stA.transactions = pre ++ txA :: post ∧
      update_transaction_status stA txA.id .Failed 9 = .ok ({ txA with status := .Failed }, st2) ∧
      st2.transactions = pre ++ { txA with status := .Failed } :: post ∧
      st2.wallets = stA.wallets :=
  C8_fail_changes_only_status stA txA 9 rfl

/-- A sample transaction that has already been confirmed. -/
def txC : Transaction :=
  { id := 6
    from_wallet := "alice"
    to_wallet := "bob"
    amount := 3
    currency_type := .Bitcoin
    timestamp := 1
    status := .Confirmed
    fee := some (1 / 1000) }

/-- A sample ledger whose only transaction is already `Confirmed`. -/
def stC : WalletManager := { wallets := [wA], transactions := [txC] }

/-- C4 is false as stated: `Confirmed` is not terminal. At a concrete ledger
holding a `Confirmed` transaction, a single `update_transaction_status`
call to `Pending` succeeds and the stored status is `Pending` afterwards. -/
theorem C4_counterexample :
    txC.status = .Confirmed ∧
    ∃ st2,
      update_transaction_status stC txC.id .Pending 9 = .ok ({ txC with status := .Pending }, st2) ∧
      find_transaction txC.id st2.transactions = some { txC with status := .Pending } := by
  exact ⟨rfl, ⟨[wA], [{ txC with status := .Pending }]⟩, rfl, rfl⟩

/-- C4 (amended): `update_transaction_status` enforces no lifecycle
restriction at all: for any transaction found under its id and any requested
status `s` — regardless of the current status, `Confirmed` and `Failed`
included — the call succeeds and the stored status becomes `s`. -/
theorem C4_amended_any_status_overwrites (st : WalletManager) (t : Transaction)
    (s : TransactionStatus) (now : Nat)
    (h : find_transaction t.id st.transactions = some t) :
    ∃ st2,
      update_transaction_status st t.id s now = .ok ({ t with status := s }, st2) ∧
      find_transaction t.id st2.transactions = some { t with status := s } := by
  obtain ⟨pre, post, hts, hpre, hset⟩ := find_set_status t.id s t st.transactions h
  refine ⟨⟨if s = .Confirmed then st.wallets.map (confirm_debit { t with status := s } now)
           else st.wallets,
           pre ++ { t with status := s } :: post⟩, ?_, ?_⟩
  · simp [update_transaction_status, hset]
  · show find_transaction t.id (pre ++ { t with status := s } :: post) = _
    rw [find_transaction_append t.id pre _ hpre]
    simp [find_transaction]

/-- Closed instantiation of the amended C4: the already-`Confirmed`
transaction is overwritten back to `Pending`. -/
theorem C4_amended_witness :
    ∃ st2,
      update_transaction_status stC txC.id .Pending 9 = .ok ({ txC with status := .Pending }, st2) ∧
      find_transaction txC.id st2.transactions = some { txC with status := .Pending } :=
  C4_amended_any_status_overwrites stC txC .Pending 9 rfl

/-- C6: confirmation is not idempotent. Confirming the same transaction twice
in succession debits every wallet matching the sender address twice: the
final balance sits exactly `2 * (amount + fee)` below the starting balance. -/
theorem C6_double_confirm_double_debit (st : WalletManager) (t : Transaction) (n1 n2 : Nat)
    (h : find_transaction t.id st.transactions = some t) :
    ∃ t1 st1 t2 st2,
      update_transaction_status st t.id .Confirmed n1 = .ok (t1, st1) ∧
      update_transaction_status st1 t.id .Confirmed n2 = .ok (t2, st2) ∧
      st2.wallets = st.wallets.map (fun w =>
        if w.address = t.from_wallet then
          { w with balance := w.balance - 2 * (t.amount + t.fee.getD 0), last_updated := n2 }
        else w) := by
  obtain ⟨pre, post, hts, hpre, hset⟩ := find_set_status t.id .Confirmed t st.transactions h
  have hfind1 : find_transaction t.id (pre ++ { t with status := .Confirmed } :: post) =
      some { t with status := .Confirmed } := by
    rw [find_transaction_append t.id pre _ hpre]
    simp [find_transaction]
  obtain ⟨pre2, post2, hts2, hpre2, hset2⟩ :=
    find_set_status t.id .Confirmed { t with status := .Confirmed } _ hfind1
  refine ⟨{ t with status := .Confirmed },
          ⟨st.wallets.map (confirm_debit { t with status := .Confirmed } n1),
           pre ++ { t with status := .Confirmed } :: post⟩,
          { t with status := .Confirmed },
          ⟨(st.wallets.map (confirm_debit { t with status := .Confirmed } n1)).map
             (confirm_debit { t with status := .Confirmed } n2),
           pre2 ++ { t with status := .Confirmed } :: post2⟩, ?_, ?_, ?_⟩
  · simp [update_transaction_status, hset]
  · simp [update_transaction_status, hset2]
  · show (st.wallets.map (confirm_debit { t with status := .Confirmed } n1)).map
        (confirm_debit { t with status := .Confirmed } n2) = _
    rw [List.map_map]
    refine List.map_congr_left fun w _ => ?_
    exact confirm_debit_twice { t with status := .Confirmed } n1 n2 w

/-- Closed instantiation of C6: confirming the sample transaction twice. -/
theorem C6_witness :
    ∃ t1 st1 t2 st2,
      update_transaction_status stA txA.id .Confirmed 8 = .ok (t1, st1) ∧
      update_transaction_status st1 txA.id .Confirmed 9 = .ok (t2, st2) ∧
      st2.wallets = stA.wallets.map (fun w =>
        if w.address = txA.from_wallet then
          { w with balance := w.balance - 2 * (txA.amount + txA.fee.getD 0), last_updated := 9 }
        else w) :=
  C6_double_confirm_double_debit stA txA 8 9 rfl

/-- C5: `create_transaction` fails with `InvalidInput` exactly when the amount
is non-positive or exceeds the sender's balance; on success the new
transaction is `Pending` and is appended to the log; the stored wallets are
untouched either way. -/
theorem C5_create_transaction_spec (st : WalletManager) (fw : Wallet) (to_address : String)
    (amount : ℚ) (new_id now : Nat) :
    (create_transaction st fw to_address amount new_id now = .error .InvalidInput ↔
      (amount ≤ 0 ∨ fw.balance < amount)) ∧
    (∀ tx st2, create_transaction st fw to_address amount new_id now = .ok (tx, st2) →
      tx.status = .Pending ∧ st2.transactions = st.transactions ++ [tx] ∧
      st2.wallets = st.wallets) := by
  by_cases h1 : amount ≤ 0
  · constructor
    · simp [create_transaction, h1]
    · intro tx st2 hok
      simp [create_transaction, h1] at hok
  by_cases h2 : fw.balance < amount
  · constructor
    · simp [create_transaction, h1, h2]
    · intro tx st2 hok
      simp [create_transaction, h1, h2] at hok
  · constructor
    · simp [create_transaction, h1, h2]
    · intro tx st2 hok
      simp only [create_transaction, if_neg h1, if_neg h2, Except.ok.injEq, Prod.mk.injEq] at hok
      obtain ⟨htx, hst⟩ := hok
      subst htx
      subst hst
      exact ⟨rfl, rfl, rfl⟩

/-- The transaction produced by the successful sample `create_transaction`
call in the C5 instantiation. -/
def tx5 : Transaction :=
  { id := 41
    from_wallet := "alice"
    to_wallet := "carol"
    amount := 2
    currency_type := .Bitcoin
    timestamp := 6
    status := .Pending
    fee := some (1 / 1000) }

/-- The ledger state after the successful sample `create_transaction` call. -/
def st5b : WalletManager := { wallets := [wA, wB], transactions := [txA, tx5] }

/-- Closed instantiation of C5: a rejected zero-amount request and a
successful request appending a `Pending` transaction. -/
theorem C5_witness :
    create_transaction stA wA "carol" 0 41 6 = .error .InvalidInput ∧
    (tx5.status = .Pending ∧ st5b.transactions = stA.transactions ++ [tx5] ∧
      st5b.wallets = stA.wallets) :=
  ⟨(C5_create_transaction_spec stA wA "carol" 0 41 6).1.mpr (Or.inl (by norm_num)),
   (C5_create_transaction_spec stA wA "carol" 2 41 6).2 tx5 st5b rfl⟩

/-- C7: a wallet balance can go strictly negative with a purely sequential
sequence of calls: set the balance to exactly the transfer amount, create the
transaction (the balance check ignores the fee), then confirm it (no balance
re-check): the sender ends up `fee` below zero. -/
theorem C7_negative_balance_reachable :
    ∃ w1 st1 tx st2 t2 st3 w3,
      update_wallet_balance ⟨[wA], []⟩ 1 5 10 = .ok (w1, st1) ∧
      create_transaction st1 w1 "carol" 5 42 11 = .ok (tx, st2) ∧
      update_transaction_status st2 42 .Confirmed 12 = .ok (t2, st3) ∧
      get_wallet st3 1 = .ok w3 ∧
      w3.balance < 0 := by
  refine ⟨_, _, _, _, _, _, _, rfl, rfl, rfl, rfl, ?_⟩
  norm_num [confirm_debit, Option.getD]

lemma update_wallet_balance_ok_iff (st : WalletManager) (wid : Nat) (b : ℚ) (now : Nat) :
    (∃ p, update_wallet_balance st wid b now = .ok p) ↔ wallet_exists st wid = true := by
  cases hf : find_wallet wid st.wallets with
  | some w =>
    obtain ⟨ws2, hset, hfind⟩ := find_set_balance wid b now w st.wallets hf
    constructor
    · intro _
      simp [wallet_exists, hf]
    · intro _
      exact ⟨({ w with balance := b, last_updated := now }, { st with wallets := ws2 }),
        by simp [update_wallet_balance, hset]⟩
  | none =>
    constructor
    · rintro ⟨p, hp⟩
      simp [update_wallet_balance, set_balance_first_none wid b now st.wallets hf] at hp
    · intro hw
      simp [wallet_exists, hf] at hw

lemma get_wallet_ok_iff (st : WalletManager) (wid : Nat) :
    (∃ w, get_wallet st wid = .ok w) ↔ wallet_exists st wid = true := by
  cases hf : find_wallet wid st.wallets with
  | some w =>
    constructor
    · intro _
      simp [wallet_exists, hf]
    · intro _
      exact ⟨w, by simp [get_wallet, hf]⟩
  | none =>
    constructor
    · rintro ⟨w, hw⟩
      simp [get_wallet, hf] at hw
    · intro hw
      simp [wallet_exists, hf] at hw

lemma tick_met_found (cfg : LoopConfig) (wid s now : Nat) (m : BandwidthMetrics)
    (st : WalletManager) (w : Wallet)
    (hs : cfg.min_bandwidth ≤ s) (hf : find_wallet wid st.wallets = some w) :
    ∃ ws2,
      tick cfg wid s now m st =
        ({ total_bytes_shared := m.total_bytes_shared + s
           current_speed := (s : ℚ) / (cfg.interval_duration : ℚ)
           uptime := m.uptime + cfg.interval_duration
           last_reward := some now
           start_time := m.start_time },
         { st with wallets := ws2 }) ∧
      find_wallet wid ws2 =
        some { w with
               balance := w.balance + ((s : ℚ) / (1024 * 1024)) * cfg.reward_rate,
               last_updated := now } := by
  obtain ⟨ws2, hset, hfind⟩ :=
    find_set_balance wid (w.balance + ((s : ℚ) / (1024 * 1024)) * cfg.reward_rate) now w
      st.wallets hf
  refine ⟨ws2, ?_, hfind⟩
  simp [tick, hs, get_wallet, hf, update_wallet_balance, hset]

lemma tick_met_missing (cfg : LoopConfig) (wid s now : Nat) (m : BandwidthMetrics)
    (st : WalletManager)
    (hs : cfg.min_bandwidth ≤ s) (hf : find_wallet wid st.wallets = none) :
    tick cfg wid s now m st =
      ({ m with
         total_bytes_shared := m.total_bytes_shared + s
         current_speed := (s : ℚ) / (cfg.interval_duration : ℚ)
         uptime := m.uptime + cfg.interval_duration }, st) := by
  simp [tick, hs, get_wallet, hf]

lemma run_ticks_fixed_sample (cfg : LoopConfig) (wid s : Nat) (hs : cfg.min_bandwidth ≤ s) :
    ∀ (N : Nat) (times : Nat → Nat) (m : BandwidthMetrics) (st : WalletManager) (w : Wallet),
      find_wallet wid st.wallets = some w →
      (run_ticks cfg wid s times N (m, st)).1.total_bytes_shared =
        m.total_bytes_shared + N * s ∧
      ∃ w2, find_wallet wid (run_ticks cfg wid s times N (m, st)).2.wallets = some w2 ∧
        w2.balance = w.balance + N * (((s : ℚ) / (1024 * 1024)) * cfg.reward_rate) := by
  intro N
  induction N with
  | zero =>
    intro times m st w hf
    refine ⟨by simp [run_ticks], w, by simpa [run_ticks] using hf, by simp⟩
  | succ n ih =>
    intro times m st w hf
    obtain ⟨ws2, htick, hfind⟩ := tick_met_found cfg wid s (times n) m st w hs hf
    have step : run_ticks cfg wid s times (n + 1) (m, st) =
        run_ticks cfg wid s times n (tick cfg wid s (times n) m st) := rfl
    rw [step, htick]
    obtain ⟨htot, w2, hw2, hbal⟩ := ih times
      { total_bytes_shared := m.total_bytes_shared + s
        current_speed := (s : ℚ) / (cfg.interval_duration : ℚ)
        uptime := m.uptime + cfg.interval_duration
        last_reward := some (times n)
        start_time := m.start_time }
      { st with wallets := ws2 }
      { w with
        balance := w.balance + ((s : ℚ) / (1024 * 1024)) * cfg.reward_rate,
        last_updated := times n }
      hfind
    refine ⟨?_, w2, hw2, ?_⟩
    · rw [htot]
      push_cast
      ring
    · rw [hbal]
      push_cast
      ring

/-- C2: starting from fresh metrics, `N` ticks of one monitoring loop each
measuring exactly `min_bandwidth` bytes (no other mutator running) leave
`total_bytes_shared = N * min_bandwidth` and raise the monitored wallet's
balance by exactly `N * (min_bandwidth / 1 MiB) * reward_rate`. -/
theorem C2_n_ticks_accumulate (bm : BandwidthManager) (wid : Nat) (w : Wallet)
    (st : WalletManager) (times : Nat → Nat) (N start : Nat)
    (h : find_wallet wid st.wallets = some w) :
    (run_ticks (start_monitoring bm) wid bm.min_bandwidth times N
        (fresh_metrics start, st)).1.total_bytes_shared = N * bm.min_bandwidth ∧
    ∃ w2,
      find_wallet wid (run_ticks (start_monitoring bm) wid bm.min_bandwidth times N
          (fresh_metrics start, st)).2.wallets = some w2 ∧
      w2.balance = w.balance +
        N * (((bm.min_bandwidth : ℚ) / (1024 * 1024)) * bm.reward_rate) := by
  obtain ⟨htot, w2, hw2, hbal⟩ :=
    run_ticks_fixed_sample (start_monitoring bm) wid bm.min_bandwidth (le_refl _) N times
      (fresh_metrics start) st w h
  exact ⟨by simpa [fresh_metrics] using htot, w2, hw2, hbal⟩

/-- Closed instantiation of C2: two 1-MiB ticks at the default configuration
credit the sample wallet twice. -/
theorem C2_witness :
    (run_ticks (start_monitoring BandwidthManager.new) 1 BandwidthManager.new.min_bandwidth
        (fun k => k) 2 (fresh_metrics 0, stA)).1.total_bytes_shared =
      2 * BandwidthManager.new.min_bandwidth ∧
    ∃ w2,
      find_wallet 1 (run_ticks (start_monitoring BandwidthManager.new) 1
          BandwidthManager.new.min_bandwidth (fun k => k) 2
          (fresh_metrics 0, stA)).2.wallets = some w2 ∧
      w2.balance = wA.balance +
        2 * (((BandwidthManager.new.min_bandwidth : ℚ) / (1024 * 1024)) *
          BandwidthManager.new.reward_rate) :=
  C2_n_ticks_accumulate BandwidthManager.new 1 wA stA (fun k => k) 2 0 rfl

/-- C3: in a tick whose sample meets the threshold, `last_reward` is set to
the current time exactly when the ledger balance-set can succeed (in the
sequential model, reading the wallet succeeds if and only if writing it
does); if the read or the write fails, `last_reward` is left unchanged. -/
theorem C3_last_reward_iff_write_succeeds (cfg : LoopConfig) (wid s now : Nat)
    (m : BandwidthMetrics) (st : WalletManager) (hs : cfg.min_bandwidth ≤ s) :
    ((tick cfg wid s now m st).1.last_reward =
      if wallet_exists st wid then some now else m.last_reward) ∧
    (∀ b, (∃ p, update_wallet_balance st wid b now = .ok p) ↔ wallet_exists st wid = true) ∧
    ((∃ w, get_wallet st wid = .ok w) ↔ wallet_exists st wid = true) := by
  refine ⟨?_, fun b => update_wallet_balance_ok_iff st wid b now, get_wallet_ok_iff st wid⟩
  cases hf : find_wallet wid st.wallets with
  | some w =>
    obtain ⟨ws2, htick, _⟩ := tick_met_found cfg wid s now m st w hs hf
    simp [htick, wallet_exists, hf]
  | none =>
    rw [tick_met_missing cfg wid s now m st hs hf]
    simp [wallet_exists, hf]

/-- Closed instantiation of C3 at a 2-MiB sample on the sample ledger. -/
theorem C3_witness :
    ((tick (start_monitoring BandwidthManager.new) 1 2097152 99 (fresh_metrics 0) stA).1.last_reward =
      if wallet_exists stA 1 then some 99 else (fresh_metrics 0).last_reward) ∧
    (∀ b, (∃ p, update_wallet_balance stA 1 b 99 = .ok p) ↔ wallet_exists stA 1 = true) ∧
    ((∃ w, get_wallet stA 1 = .ok w) ↔ wallet_exists stA 1 = true) :=
  C3_last_reward_iff_write_succeeds (start_monitoring BandwidthManager.new) 1 2097152 99
    (fresh_metrics 0) stA (by decide)

/-- C9: a tick whose sample is below the threshold accumulates the sample
into `total_bytes_shared`, sets `current_speed` to sample over interval
seconds and extends `uptime`, while `last_reward` (untouched record field)
and the whole wallet store are left exactly as they were. -/
theorem C9_below_threshold_frame (cfg : LoopConfig) (wid s now : Nat)
    (m : BandwidthMetrics) (st : WalletManager) (hs : s < cfg.min_bandwidth) :
    tick cfg wid s now m st =
      ({ m with
         total_bytes_shared := m.total_bytes_shared + s
         current_speed := (s : ℚ) / (cfg.interval_duration : ℚ)
         uptime := m.uptime + cfg.interval_duration }, st) := by
  simp [tick, Nat.not_le.mpr hs]

/-- Closed instantiation of C9: a 100-byte sample at the default 1-MiB
threshold. -/
theorem C9_witness :
    tick (start_monitoring BandwidthManager.new) 1 100 99 (fresh_metrics 0) stA =
      ({ fresh_metrics 0 with
         total_bytes_shared := (fresh_metrics 0).total_bytes_shared + 100
         current_speed := (100 : ℚ) / ((start_monitoring BandwidthManager.new).interval_duration : ℚ)
         uptime := (fresh_metrics 0).uptime +
           (start_monitoring BandwidthManager.new).interval_duration }, stA) :=
  C9_below_threshold_frame (start_monitoring BandwidthManager.new) 1 100 99
    (fresh_metrics 0) stA (by decide)

/-- C10: the loop configuration captured by `start_monitoring` keeps the
manager's values from start time — later `update_reward_rate` and
`update_min_bandwidth` calls change only the manager, which the detached loop
never reads again — while `calculate_total_rewards` and
`get_estimated_hourly_rewards` do use the updated rate. -/
theorem C10_loop_uses_captured_values (bm : BandwidthManager) (new_rate : ℚ) (new_min : Nat)
    (bm2 bm3 : BandwidthManager) (m : BandwidthMetrics)
    (h1 : update_reward_rate bm new_rate = .ok bm2)
    (h2 : update_min_bandwidth bm2 new_min = .ok bm3) :
    start_monitoring bm =
      { reward_rate := bm.reward_rate
        min_bandwidth := bm.min_bandwidth
        interval_duration := bm.measurement_interval } ∧
    bm3.reward_rate = new_rate ∧
    bm3.min_bandwidth = new_min ∧
    calculate_total_rewards bm3 m =
      ((m.total_bytes_shared : ℚ) / (1024 * 1024)) * new_rate ∧
    get_estimated_hourly_rewards bm3 m =
      ((m.current_speed * 3600) / (1024 * 1024)) * new_rate := by
  by_cases hr : new_rate < 0
  · simp [update_reward_rate, hr] at h1
  by_cases hm : new_min = 0
  · simp [update_min_bandwidth, hm] at h2
  · simp only [update_reward_rate, if_neg hr, Except.ok.injEq] at h1
    simp only [update_min_bandwidth, if_neg hm, Except.ok.injEq] at h2
    subst h1
    subst h2
    exact ⟨rfl, rfl, rfl, rfl, rfl⟩

/-- Closed instantiation of C10 at the default manager with the rate updated
to 3 and the threshold to 500. -/
theorem C10_witness :
    start_monitoring BandwidthManager.new =
      { reward_rate := BandwidthManager.new.reward_rate
        min_bandwidth := BandwidthManager.new.min_bandwidth
        interval_duration := BandwidthManager.new.measurement_interval } ∧
    ({ reward_rate := 3, min_bandwidth := 500, measurement_interval := 60 } :
        BandwidthManager).reward_rate = 3 ∧
    ({ reward_rate := 3, min_bandwidth := 500, measurement_interval := 60 } :
        BandwidthManager).min_bandwidth = 500 ∧
    calculate_total_rewards
        { reward_rate := 3, min_bandwidth := 500, measurement_interval := 60 }
        (fresh_metrics 0) =
      (((fresh_metrics 0).total_bytes_shared : ℚ) / (1024 * 1024)) * 3 ∧
    get_estimated_hourly_rewards
        { reward_rate := 3, min_bandwidth := 500, measurement_interval := 60 }
        (fresh_metrics 0) =
      (((fresh_metrics 0).current_speed * 3600) / (1024 * 1024)) * 3 :=
  C10_loop_uses_captured_values BandwidthManager.new 3 500
    { reward_rate := 3, min_bandwidth := 1024 * 1024, measurement_interval := 60 }
    { reward_rate := 3, min_bandwidth := 500, measurement_interval := 60 }
    (fresh_metrics 0) rfl rfl
